import Mathlib

/-!
Shallow embedding of the Tangerine movie-tracking application, centred on the
suggestion workflow (src/services/suggestionService.js), the media data store
(src/models/mediaData.js) and the two API clients (src/api/mistralApi.js,
src/api/omdbApi.js).  External asynchronous calls (the Mistral suggestion
client and the OMDB metadata client) are modelled as explicit oracle
parameters giving the outcome of each call; `Except Unit` marks a call whose
promise may reject.  Callback invocations are recorded as an ordered event
trace so that ordering claims (save-before-notify, error callback invoked)
are provable.
-/

/-- Movie record as stored in the data model: the fields of an OMDB payload
that the suggestion and list logic reads (`imdbID`, `Title`, `Year`,
`Genre`, `userRating`).  Optional fields are absent (`none`) when the JS
object lacks the property. -/
structure Movie where
  imdbID : String
  Title : String
  Year : String
  Genre : Option String
  userRating : Option Nat
deriving DecidableEq, Repr

/-- A stored suggestion: a movie record spread together with a `reason`
string (`{...movieDetails, reason}` in suggestionService.js). -/
structure Suggestion where
  movie : Movie
  reason : String
deriving DecidableEq, Repr

/-- A candidate returned by the Mistral client before metadata enrichment:
a `title`/`year`/`reason` triple, `reason` possibly absent. -/
structure Candidate where
  title : String
  year : String
  reason : Option String
deriving DecidableEq, Repr

/-- The global mutable store of mediaData.js (`mediaData`): the fields the
claims touch (`toWatch`, `watched`, `selectedMovie`, `searchResults`,
`suggestions`). -/
structure MediaData where
  toWatch : List Movie
  watched : List Movie
  selectedMovie : Option Movie
  searchResults : List Movie
  suggestions : List Suggestion
deriving DecidableEq, Repr

/-- JavaScript `a || b` for an optional string: `b` when `a` is absent or
empty (the empty string is falsy). -/
def jsOr (a : Option String) (b : String) : String :=
  match a with
  | some s => if s = "" then b else s
  | none => b

/-- `getMovies(list)` of mediaData.js: `mediaData[list] || []`. -/
def getMovies (st : MediaData) (list : String) : List Movie :=
  if list == "toWatch" then st.toWatch
  else if list == "watched" then st.watched
  else []

/-- `getCurrentSuggestions()` of mediaData.js. -/
def getCurrentSuggestions (st : MediaData) : List Suggestion :=
  st.suggestions

/-- `saveSuggestions(suggestions)` of mediaData.js: overwrites the
`suggestions` field of the store (and persists the whole record). -/
def saveSuggestions (st : MediaData) (suggestions : List Suggestion) : MediaData :=
  { st with suggestions := suggestions }

/-- Combined `findIndex` + `splice(i, 1)` on a list: returns the first
element satisfying `p` together with the list with that one occurrence
removed, or `none` when no element matches (`findIndex === -1`). -/
def extractFirst (p : α → Bool) : List α → Option (α × List α)
  | [] => none
  | x :: xs =>
    if p x then some (x, xs)
    else
      match extractFirst p xs with
      | none => none
      | some (y, ys) => some (y, x :: ys)

/-- `markAsWatched(imdbID, rating)` of mediaData.js: find the movie in
`toWatch`; if absent do nothing; otherwise set the user rating when one is
given, remove it from `toWatch` and unshift it onto `watched`. -/
def markAsWatched (st : MediaData) (imdbID : String) (rating : Option Nat) : MediaData :=
  match extractFirst (fun m => m.imdbID == imdbID) st.toWatch with
  | none => st
  | some (movie, rest) =>
    let movie :=
      match rating with
      | some r => { movie with userRating := some r }
      | none => movie
    { st with toWatch := rest, watched := movie :: st.watched }

/-- `markAsUnwatched(imdbID)` of mediaData.js: find the movie in `watched`;
if absent do nothing; otherwise delete its user rating, remove it from
`watched` and unshift it onto `toWatch`. -/
def markAsUnwatched (st : MediaData) (imdbID : String) : MediaData :=
  match extractFirst (fun m => m.imdbID == imdbID) st.watched with
  | none => st
  | some (movie, rest) =>
    let movie := { movie with userRating := none }
    { st with watched := rest, toWatch := movie :: st.toWatch }

/-- A `markAsWatched` or `markAsUnwatched` call, for reasoning about
arbitrary sequences of the two operations. -/
inductive MarkOp where
  | watch (imdbID : String) (rating : Option Nat)
  | unwatch (imdbID : String)
deriving DecidableEq, Repr

/-- Apply a sequence of mark operations to the store, first element first. -/
def applyMarkOps (ops : List MarkOp) (st : MediaData) : MediaData :=
  match ops with
  | [] => st
  | MarkOp.watch id r :: rest => applyMarkOps rest (markAsWatched st id r)
  | MarkOp.unwatch id :: rest => applyMarkOps rest (markAsUnwatched st id)

/-- External IDs of both lists in order, `toWatch` first. -/
def allListIds (st : MediaData) : List String :=
  (st.toWatch ++ st.watched).map (fun m => m.imdbID)

/-- No external ID occurs in both `toWatch` and `watched` (the spec's
list-exclusivity property, stated exactly as the claim states it). -/
def listsExclusive (st : MediaData) : Prop :=
  ∀ id ∈ st.toWatch.map (fun m => m.imdbID), id ∉ st.watched.map (fun m => m.imdbID)

instance (st : MediaData) : Decidable (listsExclusive st) := by
  unfold listsExclusive; infer_instance

/-- The external IDs across both lists are pairwise distinct (no ID in both
lists, none duplicated within a list). -/
def idsNodup (st : MediaData) : Prop :=
  (allListIds st).Nodup

instance (st : MediaData) : Decidable (idsNodup st) := by
  unfold idsNodup allListIds; infer_instance

/-- One observable effect of a suggestion-service run: a callback invocation
or a store write, in the order the code performs them. -/
inductive SvcEvent where
  | loadStart
  | saveSuggestionsEv (s : List Suggestion)
  | loadComplete (s : List Suggestion)
  | errorCb
  | replaceStart (imdbID : String)
  | replaceComplete (imdbID : String)
deriving DecidableEq, Repr

/-- Result of one `getMovieSuggestions` run: the store afterwards, the event
trace, and how many calls were made to the Mistral client and to the OMDB
client. -/
structure SvcRun where
  store : MediaData
  events : List SvcEvent
  mistralCalls : Nat
  omdbCalls : Nat
deriving DecidableEq, Repr

/-- The per-candidate body of the `Promise.all` in `getMovieSuggestions`
(suggestionService.js 59-79): look the candidate up in OMDB (any rejection
is caught by the inner `try` and yields `null`, as does a not-found); drop
the result when its `imdbID` is already in `existingMovieIds`; otherwise
spread the details with the candidate's `reason` (or the default text). -/
def buildSuggestion (existingMovieIds : List String)
    (omdbRes : Except Unit (Option Movie)) (suggestion : Candidate) : Option Suggestion :=
  match omdbRes with
  | .error _ => none
  | .ok none => none
  | .ok (some movieDetails) =>
    if existingMovieIds.contains movieDetails.imdbID then none
    else some ⟨movieDetails, jsOr suggestion.reason "Recommended based on your taste"⟩

/-- `suggestionsWithDetails` followed by the `filter(s => s !== null)` of
`getMovieSuggestions`: enrich each candidate (the `i`-th OMDB call outcome
is `omdb i`) and keep the non-null results in candidate order. -/
def validSuggestionsOf (existingMovieIds : List String)
    (omdb : Nat → Except Unit (Option Movie)) (cands : List Candidate) : List Suggestion :=
  (cands.enum.map (fun p => buildSuggestion existingMovieIds (omdb p.1) p.2)).filterMap id

/-- `getMovieSuggestions(onLoadStart, onLoadComplete, onError)` of
suggestionService.js.  The Mistral call outcome is the oracle `mistral`
(its `.error` case covers both a network failure and a response whose text
defeats both parsing tiers, since `getSuggestions` rethrows every
exception); the `i`-th OMDB lookup outcome is `omdb i`.  The three
callbacks are recorded in the event trace. -/
def getMovieSuggestions (st : MediaData) (mistral : Except Unit (List Candidate))
    (omdb : Nat → Except Unit (Option Movie)) : SvcRun :=
  let toWatchMovies := getMovies st "toWatch"
  let watchedMovies := getMovies st "watched"
  let hasMovies := decide (toWatchMovies.length > 0) || decide (watchedMovies.length > 0)
  if hasMovies then
    let allMovies := toWatchMovies ++ watchedMovies
    let existingMovieIds := allMovies.map (fun m => m.imdbID)
    match mistral with
    | .error _ => ⟨st, [.loadStart, .errorCb], 1, 0⟩
    | .ok suggestionData =>
      let cands := suggestionData.take 5
      let validSuggestions := validSuggestionsOf existingMovieIds omdb cands
      ⟨saveSuggestions st validSuggestions,
       [.loadStart, .saveSuggestionsEv validSuggestions, .loadComplete validSuggestions],
       1, cands.length⟩
  else
    ⟨st, [.loadStart, .loadComplete []], 0, 0⟩

/-- Result of one `replaceSuggestion` run: the store afterwards, the event
trace, and the value the promise resolves with (`newSuggestion`, or
`null`/`undefined` modelled as `none`). -/
structure RepRun where
  store : MediaData
  events : List SvcEvent
  ret : Option Suggestion
deriving DecidableEq, Repr

/-- `replaceSuggestion(imdbID, onReplaceStart, onReplaceComplete, onError)`
of suggestionService.js.  `mistral` is the outcome of the single
`getReplacementSuggestion` call, `omdb` the outcome of the single
`searchMovieByTitle` call; a rejection of either propagates to the outer
`catch`, which invokes `onError` and resolves with `null`.  The fall-through
`throw new Error('Could not get movie details for suggestion')` (reached
when OMDB yields no record or when the target ID is absent from the current
suggestion set) lands in the same `catch`. -/
def replaceSuggestion (st : MediaData) (imdbID : String)
    (mistral : Except Unit Candidate) (omdb : Except Unit (Option Movie)) : RepRun :=
  let suggestions := getCurrentSuggestions st
  let allMovies := getMovies st "toWatch" ++ getMovies st "watched"
  let existingMovieIds :=
    allMovies.map (fun m => m.imdbID) ++ suggestions.map (fun s => s.movie.imdbID)
  match mistral with
  | .error _ => ⟨st, [.replaceStart imdbID, .errorCb], none⟩
  | .ok suggestionData =>
    match omdb with
    | .error _ => ⟨st, [.replaceStart imdbID, .errorCb], none⟩
    | .ok none => ⟨st, [.replaceStart imdbID, .errorCb], none⟩
    | .ok (some movieDetails) =>
      if existingMovieIds.contains movieDetails.imdbID then
        ⟨st, [.replaceStart imdbID, .errorCb], none⟩
      else
        let newSuggestion : Suggestion :=
          ⟨movieDetails, jsOr suggestionData.reason "Recommended based on your taste"⟩
        let currentSuggestions := getCurrentSuggestions st
        match currentSuggestions.findIdx? (fun s => s.movie.imdbID == imdbID) with
        | some index =>
          let updatedSuggestions := currentSuggestions.set index newSuggestion
          ⟨saveSuggestions st updatedSuggestions,
           [.replaceStart imdbID, .saveSuggestionsEv updatedSuggestions,
            .replaceComplete imdbID],
           some newSuggestion⟩
        | none => ⟨st, [.replaceStart imdbID, .errorCb], none⟩

/-- A search hit inside an OMDB search payload (`data.Search[i]`): only its
`imdbID` is read by the code under study. -/
structure SearchHit where
  imdbID : String
deriving DecidableEq, Repr

/-- Parsed OMDB response body as the code reads it: the `Response` marker
(`"True"` / `"False"`), the optional `Error` message, the optional `Search`
array.  The record itself stands for the movie payload that
`searchMovieByTitle` and `fetchMovieDetails` return on success. -/
structure OmdbJson where
  Response : String
  Error : Option String
  Search : Option (List SearchHit)
deriving DecidableEq, Repr

/-- `searchMovieByTitle(title, year)` of omdbApi.js.  `fetchO i` is the
outcome of the `i`-th `fetch`-and-parse in the body (0: exact-title lookup,
1: fuzzy search, 2: detail lookup for the first hit); `.error` is a
rejection (network failure, or a body that is not JSON).  The function's
own `try`/`catch` turns every rejection into a plain `null` return, so the
embedding is total: it resolves with `some` data or with `none`, never with
a thrown error (the source's doc comment says "Movie data object or null if
not found" and the catch returns null). -/
def searchMovieByTitle (fetchO : Nat → Except Unit OmdbJson)
    (title : String) (year : String) : Option OmdbJson :=
  match fetchO 0 with
  | .error _ => none
  | .ok data =>
    if data.Response == "True" then some data
    else
      match fetchO 1 with
      | .error _ => none
      | .ok searchData =>
        if searchData.Response == "True"
            && !(searchData.Search.getD []).isEmpty then
          match fetchO 2 with
          | .error _ => none
          | .ok details => some details
        else none

/-- `fetchMovieDetails(imdbID)` of omdbApi.js: one fetch; a body with
`Response === 'False'` raises `new Error(data.Error)`, which the function's
own `catch` turns into a `null` return, exactly as it does for a network
rejection (the source's doc comment says "Full movie details or null on
error"). -/
def fetchMovieDetails (fetchO : Except Unit OmdbJson) (imdbID : String) : Option OmdbJson :=
  match fetchO with
  | .error _ => none
  | .ok data =>
    if data.Response == "False" then none
    else some data

/-- Opening brace character. -/
def lbrace : Char := Char.ofNat 123

/-- Closing brace character. -/
def rbrace : Char := Char.ofNat 125

/-- Double-quote character. -/
def dq : Char := Char.ofNat 34

/-- Single-quote character. -/
def sqch : Char := Char.ofNat 39

/-- Backslash character. -/
def bsl : Char := Char.ofNat 92

/-- JavaScript value produced by `JSON.parse` (numbers keep their source
text, which the code under study never inspects numerically). -/
inductive JSVal where
  | jnull
  | jbool (b : Bool)
  | jnum (text : String)
  | jstr (s : String)
  | jarr (items : List JSVal)
  | jobj (fields : List (String × JSVal))
deriving Repr

/-- JSON whitespace (space, tab, line feed, carriage return). -/
def isJsonWs (c : Char) : Bool :=
  c == ' ' || c == Char.ofNat 9 || c == Char.ofNat 10 || c == Char.ofNat 13

/-- Drop leading JSON whitespace. -/
def skipWs : List Char → List Char
  | [] => []
  | c :: cs => if isJsonWs c then skipWs cs else c :: cs

/-- Hexadecimal digit test for `\uXXXX` escapes. -/
def isHexDig (c : Char) : Bool :=
  c.isDigit || (97 ≤ c.toNat && c.toNat ≤ 102) || (65 ≤ c.toNat && c.toNat ≤ 70)

/-- Value of a hexadecimal digit. -/
def hexVal (c : Char) : Nat :=
  if c.isDigit then c.toNat - 48
  else if 97 ≤ c.toNat then c.toNat - 87
  else c.toNat - 55

/-- Single-character JSON string escapes. -/
def escCharFor (c : Char) : Option Char :=
  if c == dq then some dq
  else if c == bsl then some bsl
  else if c == '/' then some '/'
  else if c == 'b' then some (Char.ofNat 8)
  else if c == 'f' then some (Char.ofNat 12)
  else if c == 'n' then some (Char.ofNat 10)
  else if c == 'r' then some (Char.ofNat 13)
  else if c == 't' then some (Char.ofNat 9)
  else none

/-- Body of a JSON string literal, to be read after the opening quote:
returns the decoded characters and the input after the closing quote, or
`none` on a malformed literal (unterminated, bad escape, raw control
character). -/
def jStrChars : List Char → Option (List Char × List Char)
  | [] => none
  | c :: cs =>
    if c == dq then some ([], cs)
    else if c == bsl then
      match cs with
      | [] => none
      | e :: cs2 =>
        if e == 'u' then
          match cs2 with
          | h1 :: h2 :: h3 :: h4 :: cs3 =>
            if isHexDig h1 && isHexDig h2 && isHexDig h3 && isHexDig h4 then
              match jStrChars cs3 with
              | some (t, r) =>
                some (Char.ofNat
                  (((hexVal h1 * 16 + hexVal h2) * 16 + hexVal h3) * 16 + hexVal h4) :: t, r)
              | none => none
            else none
          | _ => none
        else
          match escCharFor e with
          | some ec =>
            match jStrChars cs2 with
            | some (t, r) => some (ec :: t, r)
            | none => none
          | none => none
    else if c.toNat < 32 then none
    else
      match jStrChars cs with
      | some (t, r) => some (c :: t, r)
      | none => none

/-- Greedy split of the longest class-matching run. -/
def takeWhileCls (p : Char → Bool) : List Char → List Char × List Char
  | [] => ([], [])
  | c :: cs =>
    if p c then
      let r := takeWhileCls p cs
      (c :: r.1, r.2)
    else ([], c :: cs)

/-- ASCII digit class. -/
def isDig (c : Char) : Bool := c.isDigit

/-- Exponent part of a JSON number (optional): returns the input after it. -/
def jParseExp (cs : List Char) : Option (List Char) :=
  match cs with
  | [] => some []
  | c :: t =>
    if c == 'e' || c == 'E' then
      let t2 :=
        match t with
        | d :: u => if d == '+' || d == '-' then u else t
        | [] => t
      match takeWhileCls isDig t2 with
      | ([], _) => none
      | (_ :: _, rest) => some rest
    else some cs

/-- Fraction-and-exponent part of a JSON number (optional). -/
def jParseFrac (cs : List Char) : Option (List Char) :=
  match cs with
  | [] => some []
  | c :: t =>
    if c == '.' then
      match takeWhileCls isDig t with
      | ([], _) => none
      | (_ :: _, rest) => jParseExp rest
    else jParseExp cs

/-- JSON number grammar `-? (0 | [1-9][0-9]*) frac? exp?`: returns the input
after the number, or `none` when no number starts here. -/
def jParseNumber (cs0 : List Char) : Option (List Char) :=
  let cs1 :=
    match cs0 with
    | c :: t => if c == '-' then t else cs0
    | [] => cs0
  match cs1 with
  | [] => none
  | c :: t =>
    if c == '0' then jParseFrac t
    else if c.isDigit then jParseFrac (takeWhileCls isDig t).2
    else none

/-- Match a fixed literal word at the head of the input. -/
def dropLitPre : List Char → List Char → Option (List Char)
  | [], cs => some cs
  | p :: ps, c :: cs => if c == p then dropLitPre ps cs else none
  | _ :: _, [] => none

mutual

/-- Recursive-descent JSON value parser (ECMAScript `JSON.parse` grammar),
with a fuel bound on recursion depth that the top-level entry point makes
large enough for any input. -/
def jParse (fuel : Nat) (cs : List Char) : Option (JSVal × List Char) :=
  match fuel with
  | 0 => none
  | fuel + 1 =>
    match skipWs cs with
    | [] => none
    | c :: rest =>
      if c == dq then
        match jStrChars rest with
        | some (t, r) => some (.jstr (String.mk t), r)
        | none => none
      else if c == lbrace then
        match skipWs rest with
        | d :: r2 => if d == rbrace then some (.jobj [], r2) else jObjMembers fuel rest []
        | [] => none
      else if c == '[' then
        match skipWs rest with
        | d :: r2 => if d == ']' then some (.jarr [], r2) else jArrItems fuel rest []
        | [] => none
      else if c == 't' then
        match dropLitPre ['r', 'u', 'e'] rest with
        | some r => some (.jbool true, r)
        | none => none
      else if c == 'f' then
        match dropLitPre ['a', 'l', 's', 'e'] rest with
        | some r => some (.jbool false, r)
        | none => none
      else if c == 'n' then
        match dropLitPre ['u', 'l', 'l'] rest with
        | some r => some (.jnull, r)
        | none => none
      else
        let all := c :: rest
        match jParseNumber all with
        | some r => some (.jnum (String.mk (all.take (all.length - r.length))), r)
        | none => none

/-- Members of a JSON object after the opening brace (at least one member). -/
def jObjMembers (fuel : Nat) (cs : List Char) (acc : List (String × JSVal)) :
    Option (JSVal × List Char) :=
  match fuel with
  | 0 => none
  | fuel + 1 =>
    match skipWs cs with
    | [] => none
    | c :: rest =>
      if c == dq then
        match jStrChars rest with
        | some (key, r1) =>
          match skipWs r1 with
          | d :: r2 =>
            if d == ':' then
              match jParse fuel r2 with
              | some (v, r3) =>
                match skipWs r3 with
                | e :: r4 =>
                  if e == ',' then jObjMembers fuel r4 (acc ++ [(String.mk key, v)])
                  else if e == rbrace then some (.jobj (acc ++ [(String.mk key, v)]), r4)
                  else none
                | [] => none
              | none => none
            else none
          | [] => none
        | none => none
      else none

/-- Items of a JSON array after the opening bracket (at least one item). -/
def jArrItems (fuel : Nat) (cs : List Char) (acc : List JSVal) :
    Option (JSVal × List Char) :=
  match fuel with
  | 0 => none
  | fuel + 1 =>
    match jParse fuel cs with
    | some (v, r1) =>
      match skipWs r1 with
      | c :: r2 =>
        if c == ',' then jArrItems fuel r2 (acc ++ [v])
        else if c == ']' then some (.jarr (acc ++ [v]), r2)
        else none
      | [] => none
    | none => none

end

/-- `JSON.parse` on a character list: parse one value and require only
whitespace to remain, exactly as `JSON.parse` rejects trailing input. -/
def jsonParse (cs : List Char) : Option JSVal :=
  match jParse (2 * cs.length + 4) cs with
  | some (v, rest) => if (skipWs rest).isEmpty then some v else none
  | none => none

/-- Element of the restricted regular-expression language needed for the
three patterns in `parseResponseJson`: literals, one-character classes,
greedy optional class, greedy and lazy class stars, a captured lazy plus
(`(.+?)`), and a captured fixed repetition (`(\d{4})`, written with an
accumulator that starts empty).  `grpPlusLAcc` is the in-progress state of
a lazy plus. -/
inductive RElem where
  | lit (c : Char)
  | cls (p : Char → Bool)
  | optCls (p : Char → Bool)
  | starG (p : Char → Bool)
  | starL (p : Char → Bool)
  | grpPlusL (p : Char → Bool)
  | grpPlusLAcc (p : Char → Bool) (acc : List Char)
  | grpRep (p : Char → Bool) (n : Nat) (acc : List Char)

/-- Backtracking matcher for a concatenation of `RElem`s, anchored at the
head of the input, following JavaScript semantics (greedy pieces consume as
much as possible and backtrack; lazy pieces consume as little as possible
and extend).  Returns the capture list in group order and the input after
the match. -/
def reMatch : Nat → List RElem → List Char → List String → Option (List String × List Char)
  | 0, _, _, _ => none
  | _ + 1, [], cs, caps => some (caps, cs)
  | _ + 1, .lit _ :: _, [], _ => none
  | f + 1, .lit a :: es, c :: cs2, caps => if c == a then reMatch f es cs2 caps else none
  | _ + 1, .cls _ :: _, [], _ => none
  | f + 1, .cls p :: es, c :: cs2, caps => if p c then reMatch f es cs2 caps else none
  | f + 1, .optCls _ :: es, [], caps => reMatch f es [] caps
  | f + 1, .optCls p :: es, c :: cs2, caps =>
    if p c then
      match reMatch f es cs2 caps with
      | some r => some r
      | none => reMatch f es (c :: cs2) caps
    else reMatch f es (c :: cs2) caps
  | f + 1, .starG _ :: es, [], caps => reMatch f es [] caps
  | f + 1, .starG p :: es, c :: cs2, caps =>
    if p c then
      match reMatch f (.starG p :: es) cs2 caps with
      | some r => some r
      | none => reMatch f es (c :: cs2) caps
    else reMatch f es (c :: cs2) caps
  | f + 1, .starL _ :: es, [], caps => reMatch f es [] caps
  | f + 1, .starL p :: es, c :: cs2, caps =>
    match reMatch f es (c :: cs2) caps with
    | some r => some r
    | none => if p c then reMatch f (.starL p :: es) cs2 caps else none
  | _ + 1, .grpPlusL _ :: _, [], _ => none
  | f + 1, .grpPlusL p :: es, c :: cs2, caps =>
    if p c then reMatch f (.grpPlusLAcc p [c] :: es) cs2 caps else none
  | f + 1, .grpPlusLAcc p acc :: es, [], caps => reMatch f es [] (caps ++ [String.mk acc.reverse])
  | f + 1, .grpPlusLAcc p acc :: es, c :: cs2, caps =>
    match reMatch f es (c :: cs2) (caps ++ [String.mk acc.reverse]) with
    | some r => some r
    | none => if p c then reMatch f (.grpPlusLAcc p (c :: acc) :: es) cs2 caps else none
  | f + 1, .grpRep _ 0 acc :: es, cs, caps => reMatch f es cs (caps ++ [String.mk acc.reverse])
  | _ + 1, .grpRep _ (_ + 1) _ :: _, [], _ => none
  | f + 1, .grpRep p (n + 1) acc :: es, c :: cs2, caps =>
    if p c then reMatch f (.grpRep p n (c :: acc) :: es) cs2 caps else none

/-- Leftmost match: try the pattern at every start position from left to
right (how an unanchored JavaScript regex searches).  Every `reMatch` step
strictly decreases pattern length plus remaining input, so the fuel
`pat.length + cs.length + 1` is enough for the zero-fuel branch never to be
reached. -/
def reFind (pat : List RElem) (cs : List Char) : Option (List String × List Char) :=
  match reMatch (pat.length + cs.length + 1) pat cs [] with
  | some r => some r
  | none =>
    match cs with
    | [] => none
    | _ :: cs2 => reFind pat cs2

/-- All matches in order, continuing after the end of each match, as
`matchAll` does with a `g`-flagged regex (an empty match advances by one
character); the fuel is an upper bound on the match count that the caller
makes large enough for any input. -/
def reFindAll (fuel : Nat) (pat : List RElem) (cs : List Char) : List (List String) :=
  match fuel with
  | 0 => []
  | fuel + 1 =>
    match reFind pat cs with
    | none => []
    | some (caps, rest) =>
      if rest.length < cs.length then caps :: reFindAll fuel pat rest
      else
        match rest with
        | [] => [caps]
        | _ :: t => caps :: reFindAll fuel pat t

/-- The quote class `["']`. -/
def qCls (c : Char) : Bool := c == dq || c == sqch

/-- JavaScript `\s` (the whitespace characters relevant here). -/
def wsCls (c : Char) : Bool :=
  c == ' ' || c == Char.ofNat 9 || c == Char.ofNat 10 || c == Char.ofNat 13 ||
  c == Char.ofNat 11 || c == Char.ofNat 12 || c == Char.ofNat 160

/-- The dot under the `s` flag: any character. -/
def dotAll (_ : Char) : Bool := true

/-- The dot without the `s` flag: any character except a line terminator. -/
def dotNoNl (c : Char) : Bool :=
  !(c == Char.ofNat 10 || c == Char.ofNat 13 || c == Char.ofNat 8232 || c == Char.ofNat 8233)

/-- JavaScript `\d`. -/
def digCls (c : Char) : Bool := c.isDigit

/-- A word spelled out as literal elements. -/
def lits (s : String) : List RElem := s.toList.map RElem.lit

/-- The bulk fallback pattern of `parseResponseJson` (mistralApi.js 130),
flags `gs`: an optionally quoted `title` marker, a colon, a quoted lazy
title capture, a lazy gap, an optionally quoted `year` marker, a colon, an
optionally quoted four-digit year capture, a lazy gap, an optionally quoted
`reason` marker, a colon, and a quoted lazy reason capture. -/
def patMovie : List RElem :=
  [.optCls qCls] ++ lits "title" ++
  [.optCls qCls, .starG wsCls, .lit ':', .starG wsCls,
   .cls qCls, .grpPlusL dotAll, .cls qCls, .starL dotAll, .optCls qCls] ++
  lits "year" ++
  [.optCls qCls, .starG wsCls, .lit ':', .starG wsCls,
   .optCls qCls, .grpRep digCls 4 [], .optCls qCls, .starL dotAll, .optCls qCls] ++
  lits "reason" ++
  [.optCls qCls, .starG wsCls, .lit ':', .starG wsCls,
   .cls qCls, .grpPlusL dotAll, .cls qCls]

/-- The single-suggestion title pattern (mistralApi.js 147), no flags. -/
def patTitle : List RElem :=
  lits "title" ++
  [.optCls qCls, .starG wsCls, .lit ':', .starG wsCls,
   .cls qCls, .grpPlusL dotNoNl, .cls qCls]

/-- The single-suggestion year pattern (mistralApi.js 148), no flags. -/
def patYear : List RElem :=
  lits "year" ++
  [.optCls qCls, .starG wsCls, .lit ':', .starG wsCls,
   .optCls qCls, .grpRep digCls 4 [], .optCls qCls]

/-- The single-suggestion reason pattern (mistralApi.js 149), no flags. -/
def patReason : List RElem :=
  lits "reason" ++
  [.optCls qCls, .starG wsCls, .lit ':', .starG wsCls,
   .cls qCls, .grpPlusL dotNoNl, .cls qCls]

/-- Longest prefix of the input that ends with the character `close`
(the greedy `.*` of the literal-location regex reaching for the last
closing delimiter), or `none` when `close` does not occur. -/
def takeUpToLast (close : Char) : List Char → Option (List Char)
  | [] => none
  | c :: rest =>
    match takeUpToLast close rest with
    | some t => some (c :: t)
    | none => if c == close then some [c] else none

/-- `content.match(/\[.*\]|\{.*\}/s)` of `parseResponseJson`: at the first
position holding `[` with a later `]` (or, the first alternative failing
there, `{` with a later `}`), the greedy match runs to the last such closing
delimiter in the input. -/
def firstJsonLiteral : List Char → Option (List Char)
  | [] => none
  | c :: rest =>
    if c == '[' then
      match takeUpToLast ']' rest with
      | some t => some ('[' :: t)
      | none => firstJsonLiteral rest
    else if c == lbrace then
      match takeUpToLast rbrace rest with
      | some t => some (lbrace :: t)
      | none => firstJsonLiteral rest
    else firstJsonLiteral rest

/-- A `title`/`year`/`reason` triple produced by the fallback extractors of
`parseResponseJson`. -/
structure ParsedSuggestion where
  title : String
  year : String
  reason : String
deriving DecidableEq, Repr

/-- One `matchAll` result row turned into a suggestion (the JS guard
`match.length >= 4` holds for every match of a three-group pattern). -/
def capsToSuggestion : List String → Option ParsedSuggestion
  | [t, y, r] => some ⟨t, y, r⟩
  | _ => none

/-- The object literal the fallback builds for one suggestion. -/
def sugToJson (s : ParsedSuggestion) : JSVal :=
  .jobj [("title", .jstr s.title), ("year", .jstr s.year), ("reason", .jstr s.reason)]

/-- Primary strategy of `parseResponseJson`: locate a bracketed literal
substring and run `JSON.parse` on it; `none` when either step fails (both
failures are caught and send the code to the fallback). -/
def primaryParse (content : String) : Option JSVal :=
  match firstJsonLiteral content.toList with
  | some j => jsonParse j
  | none => none

/-- Fallback tier one: every match of the bulk pattern, in order. -/
def extractAllSuggestions (content : String) : List ParsedSuggestion :=
  (reFindAll (content.length + 2) patMovie content.toList).filterMap capsToSuggestion

/-- Fallback tier two: the first matches of the three single patterns;
requires title and year, with a default reason. -/
def extractSingleSuggestion (content : String) : Option ParsedSuggestion :=
  match reFind patTitle content.toList, reFind patYear content.toList with
  | some ([t], _), some ([y], _) =>
    some ⟨t, y,
      match reFind patReason content.toList with
      | some ([r], _) => r
      | _ => "Recommended based on your taste"⟩
  | _, _ => none

/-- `parseResponseJson(content)` of mistralApi.js: primary
structured-literal parse, then the bulk field-pattern fallback, then the
single-suggestion fallback; `.error` is the final
`throw new Error('Could not extract movie suggestion(s) from response')`. -/
def parseResponseJson (content : String) : Except Unit JSVal :=
  match primaryParse content with
  | some v => .ok v
  | none =>
    let suggestions := extractAllSuggestions content
    if suggestions.length > 0 then .ok (.jarr (suggestions.map sugToJson))
    else
      match extractSingleSuggestion content with
      | some s => .ok (sugToJson s)
      | none => .error ()

/-- Does a parsed value contain at least one object carrying both a `title`
and a `year` field, at top level or as an array element?  Used to state the
claims' notion of "yields at least one title/year pair". -/
def hasTitleYearPair (v : JSVal) : Bool :=
  match v with
  | .jarr xs =>
    xs.any fun x =>
      match x with
      | .jobj fs => fs.any (fun f => f.1 == "title") && fs.any (fun f => f.1 == "year")
      | _ => false
  | .jobj fs => fs.any (fun f => f.1 == "title") && fs.any (fun f => f.1 == "year")
  | _ => false

/-- `List.contains` agrees with membership on string lists. -/
theorem str_contains_iff {l : List String} {a : String} : l.contains a = true ↔ a ∈ l :=
  List.elem_iff

/-- `List.contains` is false exactly on non-members. -/
theorem str_contains_false_iff {l : List String} {a : String} : l.contains a = false ↔ a ∉ l := by
  rw [← Bool.not_eq_true, not_iff_not]
  exact str_contains_iff

/-- The `hasMovies` guard of `getMovieSuggestions` is true when either list
is non-empty. -/
theorem hasMovies_of_ne (st : MediaData) (hne : st.toWatch ≠ [] ∨ st.watched ≠ []) :
    (decide (st.toWatch.length > 0) || decide (st.watched.length > 0)) = true := by
  rcases hne with h | h <;> simp [List.length_pos.mpr h]

/-- Closed form of `getMovieSuggestions` on the non-empty path. -/
theorem getMovieSuggestions_pos (st : MediaData) (mistral : Except Unit (List Candidate))
    (omdb : Nat → Except Unit (Option Movie))
    (hne : st.toWatch ≠ [] ∨ st.watched ≠ []) :
    getMovieSuggestions st mistral omdb =
      match mistral with
      | .error _ => ⟨st, [.loadStart, .errorCb], 1, 0⟩
      | .ok suggestionData =>
        ⟨saveSuggestions st (validSuggestionsOf (allListIds st) omdb (suggestionData.take 5)),
         [.loadStart,
          .saveSuggestionsEv (validSuggestionsOf (allListIds st) omdb (suggestionData.take 5)),
          .loadComplete (validSuggestionsOf (allListIds st) omdb (suggestionData.take 5))],
         1, (suggestionData.take 5).length⟩ := by
  have e1 : getMovies st "toWatch" = st.toWatch := rfl
  have e2 : getMovies st "watched" = st.watched := rfl
  simp only [getMovieSuggestions, e1, e2, hasMovies_of_ne st hne, if_true]
  cases mistral <;> rfl

/-- Closed form of `getMovieSuggestions` on the empty path. -/
theorem getMovieSuggestions_empty (st : MediaData) (mistral : Except Unit (List Candidate))
    (omdb : Nat → Except Unit (Option Movie))
    (h1 : st.toWatch = []) (h2 : st.watched = []) :
    getMovieSuggestions st mistral omdb = ⟨st, [.loadStart, .loadComplete []], 0, 0⟩ := by
  have e1 : getMovies st "toWatch" = st.toWatch := rfl
  have e2 : getMovies st "watched" = st.watched := rfl
  simp [getMovieSuggestions, e1, e2, h1, h2]

/-- C3: when the Suggestion Client call inside `getMovieSuggestions` raises
(network failure, or model text that defeats both parsing tiers), the whole
operation aborts: the store — in particular the previously stored
suggestion set — is unchanged, no save happens, and the caller is notified
through the error callback only. -/
theorem getMovieSuggestions_clientError_aborts (st : MediaData)
    (omdb : Nat → Except Unit (Option Movie))
    (hne : st.toWatch ≠ [] ∨ st.watched ≠ []) :
    getMovieSuggestions st (.error ()) omdb = ⟨st, [.loadStart, .errorCb], 1, 0⟩ :=
  getMovieSuggestions_pos st (.error ()) omdb hne

/-- Witness for C3 at a concrete store. -/
theorem getMovieSuggestions_clientError_aborts_witness :
    ([⟨"tt0001", "Alpha", "1990", none, none⟩] ≠ ([] : List Movie) ∨ ([] : List Movie) ≠ []) ∧
    getMovieSuggestions ⟨[⟨"tt0001", "Alpha", "1990", none, none⟩], [], none, [], []⟩
        (.error ()) (fun _ => .ok none) =
      ⟨⟨[⟨"tt0001", "Alpha", "1990", none, none⟩], [], none, [], []⟩,
       [.loadStart, .errorCb], 1, 0⟩ :=
  ⟨Or.inl (by decide),
   getMovieSuggestions_clientError_aborts
     ⟨[⟨"tt0001", "Alpha", "1990", none, none⟩], [], none, [], []⟩
     (fun _ => .ok none) (Or.inl (by decide))⟩

/-- C7: with both lists empty, `getMovieSuggestions` completes immediately
with the empty list, makes zero Suggestion Client calls and zero Metadata
Client calls, and never touches the error callback. -/
theorem getMovieSuggestions_noInput (st : MediaData) (mistral : Except Unit (List Candidate))
    (omdb : Nat → Except Unit (Option Movie))
    (h1 : st.toWatch = []) (h2 : st.watched = []) :
    (getMovieSuggestions st mistral omdb).events = [.loadStart, .loadComplete []] ∧
    (getMovieSuggestions st mistral omdb).mistralCalls = 0 ∧
    (getMovieSuggestions st mistral omdb).omdbCalls = 0 ∧
    SvcEvent.errorCb ∉ (getMovieSuggestions st mistral omdb).events := by
  rw [getMovieSuggestions_empty st mistral omdb h1 h2]
  refine ⟨rfl, rfl, rfl, by simp⟩

/-- Witness for C7 at a concrete store. -/
theorem getMovieSuggestions_noInput_witness :
    (getMovieSuggestions ⟨[], [], none, [], [⟨⟨"tt0009", "Old", "1980", none, none⟩, "r"⟩]⟩
        (.ok [⟨"Metro", "2000", none⟩]) (fun _ => .ok none)).events =
      [.loadStart, .loadComplete []] :=
  (getMovieSuggestions_noInput ⟨[], [], none, [], [⟨⟨"tt0009", "Old", "1980", none, none⟩, "r"⟩]⟩
    (.ok [⟨"Metro", "2000", none⟩]) (fun _ => .ok none) rfl rfl).1

/-- C10: on the empty-lists path the store is left entirely unmodified —
in particular the stored suggestions are neither cleared nor overwritten,
and no save event occurs. -/
theorem getMovieSuggestions_noInput_frame (st : MediaData)
    (mistral : Except Unit (List Candidate)) (omdb : Nat → Except Unit (Option Movie))
    (h1 : st.toWatch = []) (h2 : st.watched = []) :
    (getMovieSuggestions st mistral omdb).store = st ∧
    ∀ s, SvcEvent.saveSuggestionsEv s ∉ (getMovieSuggestions st mistral omdb).events := by
  rw [getMovieSuggestions_empty st mistral omdb h1 h2]
  exact ⟨rfl, fun s => by simp⟩

/-- Witness for C10 at a concrete store with a previously stored
suggestion. -/
theorem getMovieSuggestions_noInput_frame_witness :
    (getMovieSuggestions ⟨[], [], none, [], [⟨⟨"tt0009", "Old", "1980", none, none⟩, "r"⟩]⟩
        (.ok [⟨"Metro", "2000", none⟩]) (fun _ => .ok none)).store =
      ⟨[], [], none, [], [⟨⟨"tt0009", "Old", "1980", none, none⟩, "r"⟩]⟩ :=
  (getMovieSuggestions_noInput_frame ⟨[], [], none, [], [⟨⟨"tt0009", "Old", "1980", none, none⟩, "r"⟩]⟩
    (.ok [⟨"Metro", "2000", none⟩]) (fun _ => .ok none) rfl rfl).1

/-- The enriched list is never longer than the candidate list. -/
theorem validSuggestionsOf_length_le (e : List String)
    (omdb : Nat → Except Unit (Option Movie)) (cands : List Candidate) :
    (validSuggestionsOf e omdb cands).length ≤ cands.length := by
  unfold validSuggestionsOf
  calc ((cands.enum.map fun p => buildSuggestion e (omdb p.1) p.2).filterMap id).length
      ≤ (cands.enum.map fun p => buildSuggestion e (omdb p.1) p.2).length :=
        List.length_filterMap_le _ _
    _ = cands.length := by rw [List.length_map, List.enum_length]

/-- Every member of the enriched list survived the duplicate check, hence
its external ID is outside `existingMovieIds`. -/
theorem validSuggestionsOf_mem_not_existing {e : List String}
    {omdb : Nat → Except Unit (Option Movie)} {cands : List Candidate} {x : Suggestion}
    (hx : x ∈ validSuggestionsOf e omdb cands) : x.movie.imdbID ∉ e := by
  unfold validSuggestionsOf at hx
  rw [List.mem_filterMap] at hx
  obtain ⟨a, ha, hid⟩ := hx
  cases a with
  | none => simp at hid
  | some y =>
    simp only [Option.some.injEq, id] at hid
    subst hid
    rw [List.mem_map] at ha
    obtain ⟨p, _, hb⟩ := ha
    unfold buildSuggestion at hb
    split at hb
    · exact absurd hb (by simp)
    · exact absurd hb (by simp)
    · rename_i md
      split at hb
      · exact absurd hb (by simp)
      · rename_i hc
        injection hb with hb2
        subst hb2
        intro hmem
        exact hc (str_contains_iff.mpr hmem)

/-- C1: for every store with at least one non-empty list, a successful
`getMovieSuggestions` run produces a set of at most 5 suggestions, each
with an external ID absent from both `toWatch` and `watched` as read at
call time, and the event trace shows the set saved to the store strictly
before the completion callback receives it. -/
theorem getMovieSuggestions_success_contract (st : MediaData)
    (mistral : Except Unit (List Candidate)) (omdb : Nat → Except Unit (Option Movie))
    (s : List Suggestion)
    (hne : st.toWatch ≠ [] ∨ st.watched ≠ [])
    (hs : SvcEvent.loadComplete s ∈ (getMovieSuggestions st mistral omdb).events) :
    s.length ≤ 5 ∧
    (∀ x ∈ s, x.movie.imdbID ∉ st.toWatch.map (fun m => m.imdbID) ∧
      x.movie.imdbID ∉ st.watched.map (fun m => m.imdbID)) ∧
    (getMovieSuggestions st mistral omdb).events =
      [.loadStart, .saveSuggestionsEv s, .loadComplete s] ∧
    (getMovieSuggestions st mistral omdb).store = saveSuggestions st s := by
  rw [getMovieSuggestions_pos st mistral omdb hne] at hs ⊢
  cases mistral with
  | error u => simp at hs
  | ok suggestionData =>
    simp only [List.mem_cons, List.not_mem_nil, or_false] at hs
    rcases hs with h | h | h
    · exact absurd h (by simp)
    · exact absurd h (by simp)
    · cases h
      refine ⟨?_, ?_, rfl, rfl⟩
      · calc (validSuggestionsOf (allListIds st) omdb (suggestionData.take 5)).length
            ≤ (suggestionData.take 5).length := validSuggestionsOf_length_le _ _ _
          _ ≤ 5 := by rw [List.length_take]; exact min_le_left _ _
      · intro x hx
        have hni := validSuggestionsOf_mem_not_existing hx
        unfold allListIds at hni
        rw [List.map_append, List.mem_append] at hni
        push_neg at hni
        exact hni

/-- Witness for C1: one movie in `toWatch`, one candidate that resolves to
a fresh movie. -/
theorem getMovieSuggestions_success_contract_witness :
    (getMovieSuggestions ⟨[⟨"tt0001", "Alpha", "1990", none, none⟩], [], none, [], []⟩
        (.ok [⟨"Metro", "2000", some "nice"⟩])
        (fun _ => .ok (some ⟨"tt0002", "Metro", "2000", none, none⟩))).events =
      [.loadStart,
       .saveSuggestionsEv [⟨⟨"tt0002", "Metro", "2000", none, none⟩, "nice"⟩],
       .loadComplete [⟨⟨"tt0002", "Metro", "2000", none, none⟩, "nice"⟩]] :=
  (getMovieSuggestions_success_contract
    ⟨[⟨"tt0001", "Alpha", "1990", none, none⟩], [], none, [], []⟩
    (.ok [⟨"Metro", "2000", some "nice"⟩])
    (fun _ => .ok (some ⟨"tt0002", "Metro", "2000", none, none⟩))
    [⟨⟨"tt0002", "Metro", "2000", none, none⟩, "nice"⟩]
    (Or.inl (by decide)) (by decide)).2.2.1

/-- Closed form of `replaceSuggestion` when both clients deliver a movie. -/
theorem replaceSuggestion_ok_eq (st : MediaData) (id : String) (cand : Candidate) (md : Movie) :
    replaceSuggestion st id (.ok cand) (.ok (some md)) =
      (if (allListIds st ++ st.suggestions.map fun s => s.movie.imdbID).contains md.imdbID then
        ⟨st, [.replaceStart id, .errorCb], none⟩
      else
        match st.suggestions.findIdx? (fun s => s.movie.imdbID == id) with
        | some index =>
          ⟨saveSuggestions st (st.suggestions.set index
              ⟨md, jsOr cand.reason "Recommended based on your taste"⟩),
           [.replaceStart id,
            .saveSuggestionsEv (st.suggestions.set index
              ⟨md, jsOr cand.reason "Recommended based on your taste"⟩),
            .replaceComplete id],
           some ⟨md, jsOr cand.reason "Recommended based on your taste"⟩⟩
        | none => ⟨st, [.replaceStart id, .errorCb], none⟩) := rfl

/-- Closed form of `replaceSuggestion` when the Mistral call rejects. -/
theorem replaceSuggestion_mistralError_eq (st : MediaData) (id : String)
    (omdb : Except Unit (Option Movie)) :
    replaceSuggestion st id (.error ()) omdb = ⟨st, [.replaceStart id, .errorCb], none⟩ := by
  cases omdb <;> rfl

/-- Closed form of `replaceSuggestion` when the OMDB call rejects. -/
theorem replaceSuggestion_omdbError_eq (st : MediaData) (id : String) (cand : Candidate) :
    replaceSuggestion st id (.ok cand) (.error ()) = ⟨st, [.replaceStart id, .errorCb], none⟩ := rfl

/-- Closed form of `replaceSuggestion` when OMDB finds no movie. -/
theorem replaceSuggestion_omdbNone_eq (st : MediaData) (id : String) (cand : Candidate) :
    replaceSuggestion st id (.ok cand) (.ok none) = ⟨st, [.replaceStart id, .errorCb], none⟩ := rfl

/-- A `replaceSuggestion` run that reaches the completion callback must
have received a candidate and a fresh movie, found the target index, and
stored the in-place update. -/
theorem replaceSuggestion_success_inversion (st : MediaData) (id : String)
    (mistral : Except Unit Candidate) (omdb : Except Unit (Option Movie))
    (h : SvcEvent.replaceComplete id ∈ (replaceSuggestion st id mistral omdb).events) :
    ∃ cand md index,
      mistral = .ok cand ∧ omdb = .ok (some md) ∧
      ((allListIds st ++ st.suggestions.map fun s => s.movie.imdbID).contains md.imdbID) = false ∧
      st.suggestions.findIdx? (fun s => s.movie.imdbID == id) = some index ∧
      replaceSuggestion st id mistral omdb =
        ⟨saveSuggestions st (st.suggestions.set index
            ⟨md, jsOr cand.reason "Recommended based on your taste"⟩),
         [.replaceStart id,
          .saveSuggestionsEv (st.suggestions.set index
            ⟨md, jsOr cand.reason "Recommended based on your taste"⟩),
          .replaceComplete id],
         some ⟨md, jsOr cand.reason "Recommended based on your taste"⟩⟩ := by
  cases mistral with
  | error u => cases u; rw [replaceSuggestion_mistralError_eq] at h; simp at h
  | ok cand =>
    cases omdb with
    | error u => cases u; rw [replaceSuggestion_omdbError_eq] at h; simp at h
    | ok o =>
      cases o with
      | none => rw [replaceSuggestion_omdbNone_eq] at h; simp at h
      | some md =>
        rw [replaceSuggestion_ok_eq] at h
        cases hb : (allListIds st ++ st.suggestions.map fun s => s.movie.imdbID).contains md.imdbID with
        | true => rw [hb] at h; simp at h
        | false =>
          rw [hb] at h
          cases hidx : st.suggestions.findIdx? (fun s => s.movie.imdbID == id) with
          | none => rw [hidx] at h; simp at h
          | some index =>
            refine ⟨cand, md, index, rfl, rfl, hb, rfl, ?_⟩
            rw [replaceSuggestion_ok_eq, hb, hidx]
            simp

/-- Suggestion-set invariant stated by the spec: no member's external ID
appears in `toWatch` or `watched`, and no ID occurs twice within the set. -/
def suggestionSetOk (st : MediaData) : Prop :=
  (st.suggestions.map fun s => s.movie.imdbID).Nodup ∧
  ∀ x ∈ st.suggestions.map (fun s => s.movie.imdbID), x ∉ allListIds st

instance (st : MediaData) : Decidable (suggestionSetOk st) := by
  unfold suggestionSetOk allListIds; infer_instance

/-- C2 counterexample: a successful `getMovieSuggestions` run in which the
Mistral client returns the same candidate twice; both copies resolve to the
same movie, pass the lists-only duplicate check, and are stored, so the
saved set carries an internal duplicate, contradicting the claimed
invariant. -/
theorem getMovieSuggestions_internal_duplicate_counterexample :
    SvcEvent.loadComplete
        [⟨⟨"tt0002", "Metro", "2000", none, none⟩, "nice"⟩,
         ⟨⟨"tt0002", "Metro", "2000", none, none⟩, "nice"⟩] ∈
      (getMovieSuggestions ⟨[⟨"tt0001", "Alpha", "1990", none, none⟩], [], none, [], []⟩
        (.ok [⟨"Metro", "2000", some "nice"⟩, ⟨"Metro", "2000", some "nice"⟩])
        (fun _ => .ok (some ⟨"tt0002", "Metro", "2000", none, none⟩))).events ∧
    ¬ suggestionSetOk
      (getMovieSuggestions ⟨[⟨"tt0001", "Alpha", "1990", none, none⟩], [], none, [], []⟩
        (.ok [⟨"Metro", "2000", some "nice"⟩, ⟨"Metro", "2000", some "nice"⟩])
        (fun _ => .ok (some ⟨"tt0002", "Metro", "2000", none, none⟩))).store :=
  ⟨by decide, by decide⟩

/-- C2 amended: after any successful `getMovieSuggestions` no stored
member's ID appears in `toWatch` or `watched` (but internal duplicates are
possible, as the counterexample shows); and a successful
`replaceSuggestion` applied to a set satisfying the full invariant
preserves the full invariant. -/
theorem suggestionSet_invariant_amended :
    (∀ st mistral omdb s, SvcEvent.loadComplete s ∈ (getMovieSuggestions st mistral omdb).events →
      ∀ x ∈ s, x.movie.imdbID ∉ allListIds st) ∧
    (∀ st id mistral omdb, suggestionSetOk st →
      SvcEvent.replaceComplete id ∈ (replaceSuggestion st id mistral omdb).events →
      suggestionSetOk (replaceSuggestion st id mistral omdb).store) := by
  constructor
  · intro st mistral omdb s hs x hx
    by_cases hne : st.toWatch = [] ∧ st.watched = []
    · rw [getMovieSuggestions_empty st mistral omdb hne.1 hne.2] at hs
      simp at hs
      subst hs; simp at hx
    · have hne2 : st.toWatch ≠ [] ∨ st.watched ≠ [] := by tauto
      rw [getMovieSuggestions_pos st mistral omdb hne2] at hs
      cases mistral with
      | error u => simp at hs
      | ok d =>
        simp only [List.mem_cons, List.not_mem_nil, or_false] at hs
        rcases hs with h | h | h
        · exact absurd h (by simp)
        · exact absurd h (by simp)
        · cases h
          exact validSuggestionsOf_mem_not_existing hx
  · intro st id mistral omdb hok h
    obtain ⟨cand, md, index, _, _, hc, hidx, heq⟩ :=
      replaceSuggestion_success_inversion st id mistral omdb h
    rw [heq]
    have hmd := str_contains_false_iff.mp hc
    rw [List.mem_append] at hmd
    push_neg at hmd
    constructor
    · show ((st.suggestions.set index _).map fun s => s.movie.imdbID).Nodup
      rw [List.map_set]
      exact List.Nodup.set hok.1 hmd.2
    · intro x hx
      show x ∉ allListIds st
      have hx1 : x ∈ (st.suggestions.set index
          ⟨md, jsOr cand.reason "Recommended based on your taste"⟩).map
            fun s => s.movie.imdbID := hx
      rw [List.map_set] at hx1
      rcases List.mem_or_eq_of_mem_set hx1 with hx2 | hx2
      · exact hok.2 x hx2
      · rw [hx2]; exact hmd.1

/-- Witness for the amended C2: both parts applied at concrete stores. -/
theorem suggestionSet_invariant_amended_witness :
    (⟨⟨"tt0002", "Metro", "2000", none, none⟩, "nice"⟩ : Suggestion).movie.imdbID ∉
      allListIds ⟨[⟨"tt0001", "Alpha", "1990", none, none⟩], [], none, [], []⟩ ∧
    suggestionSetOk
      (replaceSuggestion
        ⟨[⟨"tt0001", "Alpha", "1990", none, none⟩], [], none, [],
         [⟨⟨"tt0002", "Metro", "2000", none, none⟩, "r"⟩]⟩
        "tt0002" (.ok ⟨"Delta", "2010", none⟩)
        (.ok (some ⟨"tt0003", "Delta", "2010", none, none⟩))).store :=
  ⟨suggestionSet_invariant_amended.1
      ⟨[⟨"tt0001", "Alpha", "1990", none, none⟩], [], none, [], []⟩
      (.ok [⟨"Metro", "2000", some "nice"⟩])
      (fun _ => .ok (some ⟨"tt0002", "Metro", "2000", none, none⟩))
      [⟨⟨"tt0002", "Metro", "2000", none, none⟩, "nice"⟩]
      (by decide) ⟨⟨"tt0002", "Metro", "2000", none, none⟩, "nice"⟩ (by decide),
   suggestionSet_invariant_amended.2
      ⟨[⟨"tt0001", "Alpha", "1990", none, none⟩], [], none, [],
       [⟨⟨"tt0002", "Metro", "2000", none, none⟩, "r"⟩]⟩
      "tt0002" (.ok ⟨"Delta", "2010", none⟩)
      (.ok (some ⟨"tt0003", "Delta", "2010", none, none⟩))
      (by decide) (by decide)⟩

/-- C4: with stored suggestions `[A, B, C]` and a successful replacement of
`B` by a duplicate-free `D`, the stored set becomes exactly `[A, D, C]`:
`D` occupies `B`'s index and the other entries are untouched (the run also
resolves with `D` and reaches the completion callback). -/
theorem replaceSuggestion_in_place (st : MediaData) (A B C : Suggestion)
    (cand : Candidate) (md : Movie)
    (hsug : st.suggestions = [A, B, C])
    (hAB : A.movie.imdbID ≠ B.movie.imdbID)
    (hfresh : md.imdbID ∉ allListIds st ∧
      md.imdbID ∉ ([A, B, C].map fun s => s.movie.imdbID)) :
    (replaceSuggestion st B.movie.imdbID (.ok cand) (.ok (some md))).store.suggestions =
      [A, ⟨md, jsOr cand.reason "Recommended based on your taste"⟩, C] ∧
    (replaceSuggestion st B.movie.imdbID (.ok cand) (.ok (some md))).ret =
      some ⟨md, jsOr cand.reason "Recommended based on your taste"⟩ ∧
    SvcEvent.replaceComplete B.movie.imdbID ∈
      (replaceSuggestion st B.movie.imdbID (.ok cand) (.ok (some md))).events := by
  have hcon : ((allListIds st ++ st.suggestions.map fun s => s.movie.imdbID).contains
      md.imdbID) = false := by
    rw [str_contains_false_iff, hsug, List.mem_append]
    push_neg
    exact hfresh
  have h1 : (A.movie.imdbID == B.movie.imdbID) = false := beq_eq_false_iff_ne.mpr hAB
  have hidx : st.suggestions.findIdx? (fun s => s.movie.imdbID == B.movie.imdbID) = some 1 := by
    rw [hsug]
    simp [List.findIdx?_cons, h1]
  rw [replaceSuggestion_ok_eq, hcon, hidx]
  simp [hsug, saveSuggestions]

/-- Witness for C4 at a concrete three-element suggestion set. -/
theorem replaceSuggestion_in_place_witness :
    (replaceSuggestion
        ⟨[], [], none, [],
         [⟨⟨"tt0011", "Ar", "2001", none, none⟩, "ra"⟩,
          ⟨⟨"tt0012", "Br", "2002", none, none⟩, "rb"⟩,
          ⟨⟨"tt0013", "Cr", "2003", none, none⟩, "rc"⟩]⟩
        "tt0012" (.ok ⟨"Delta", "2010", some "rd"⟩)
        (.ok (some ⟨"tt0014", "Delta", "2010", none, none⟩))).store.suggestions =
      [⟨⟨"tt0011", "Ar", "2001", none, none⟩, "ra"⟩,
       ⟨⟨"tt0014", "Delta", "2010", none, none⟩, "rd"⟩,
       ⟨⟨"tt0013", "Cr", "2003", none, none⟩, "rc"⟩] :=
  (replaceSuggestion_in_place
    ⟨[], [], none, [],
     [⟨⟨"tt0011", "Ar", "2001", none, none⟩, "ra"⟩,
      ⟨⟨"tt0012", "Br", "2002", none, none⟩, "rb"⟩,
      ⟨⟨"tt0013", "Cr", "2003", none, none⟩, "rc"⟩]⟩
    ⟨⟨"tt0011", "Ar", "2001", none, none⟩, "ra"⟩
    ⟨⟨"tt0012", "Br", "2002", none, none⟩, "rb"⟩
    ⟨⟨"tt0013", "Cr", "2003", none, none⟩, "rc"⟩
    ⟨"Delta", "2010", some "rd"⟩
    ⟨"tt0014", "Delta", "2010", none, none⟩
    rfl (by decide) ⟨by decide, by decide⟩).1

/-- C5 counterexample: the target ID is absent from the one-element
suggestion set, the replacement candidate resolves to a duplicate-free
movie, and the run ends with the error callback invoked (the code falls
through to `throw new Error('Could not get movie details for suggestion')`)
— not with the silent, non-error outcome the claim describes. -/
theorem replaceSuggestion_missing_target_counterexample :
    replaceSuggestion
        ⟨[⟨"tt0001", "Alpha", "1990", none, none⟩], [], none, [],
         [⟨⟨"tt0002", "Metro", "2000", none, none⟩, "r"⟩]⟩
        "zz" (.ok ⟨"Delta", "2010", none⟩)
        (.ok (some ⟨"tt0003", "Delta", "2010", none, none⟩)) =
      ⟨⟨[⟨"tt0001", "Alpha", "1990", none, none⟩], [], none, [],
        [⟨⟨"tt0002", "Metro", "2000", none, none⟩, "r"⟩]⟩,
       [.replaceStart "zz", .errorCb], none⟩ ∧
    SvcEvent.errorCb ∈
      (replaceSuggestion
        ⟨[⟨"tt0001", "Alpha", "1990", none, none⟩], [], none, [],
         [⟨⟨"tt0002", "Metro", "2000", none, none⟩, "r"⟩]⟩
        "zz" (.ok ⟨"Delta", "2010", none⟩)
        (.ok (some ⟨"tt0003", "Delta", "2010", none, none⟩))).events :=
  ⟨by decide, by decide⟩

/-- C5 amended: when the duplicate-safe candidate resolves but the target
ID is no longer in the suggestion set, the stored set is not mutated and
the fresh suggestion is discarded, but the outcome is an error: the run
resolves with `null` and the error callback is invoked. -/
theorem replaceSuggestion_missing_target (st : MediaData) (id : String)
    (cand : Candidate) (md : Movie)
    (hfresh : md.imdbID ∉ allListIds st ∧
      md.imdbID ∉ st.suggestions.map fun s => s.movie.imdbID)
    (hmiss : ∀ s ∈ st.suggestions, s.movie.imdbID ≠ id) :
    replaceSuggestion st id (.ok cand) (.ok (some md)) =
      ⟨st, [.replaceStart id, .errorCb], none⟩ := by
  have hcon : ((allListIds st ++ st.suggestions.map fun s => s.movie.imdbID).contains
      md.imdbID) = false := by
    rw [str_contains_false_iff, List.mem_append]
    push_neg
    exact hfresh
  have hidx : st.suggestions.findIdx? (fun s => s.movie.imdbID == id) = none :=
    List.findIdx?_eq_none_iff.mpr fun x hx => beq_eq_false_iff_ne.mpr (hmiss x hx)
  rw [replaceSuggestion_ok_eq, hcon, hidx]
  simp

/-- Witness for the amended C5 at a concrete store. -/
theorem replaceSuggestion_missing_target_witness :
    replaceSuggestion
        ⟨[⟨"tt0001", "Alpha", "1990", none, none⟩], [], none, [],
         [⟨⟨"tt0002", "Metro", "2000", none, none⟩, "r"⟩]⟩
        "zz" (.ok ⟨"Delta", "2010", some "rd"⟩)
        (.ok (some ⟨"tt0004", "Delta", "2010", none, none⟩)) =
      ⟨⟨[⟨"tt0001", "Alpha", "1990", none, none⟩], [], none, [],
        [⟨⟨"tt0002", "Metro", "2000", none, none⟩, "r"⟩]⟩,
       [.replaceStart "zz", .errorCb], none⟩ :=
  replaceSuggestion_missing_target
    ⟨[⟨"tt0001", "Alpha", "1990", none, none⟩], [], none, [],
     [⟨⟨"tt0002", "Metro", "2000", none, none⟩, "r"⟩]⟩
    "zz" ⟨"Delta", "2010", some "rd"⟩ ⟨"tt0004", "Delta", "2010", none, none⟩
    ⟨by decide, by decide⟩ (by decide)

/-- `extractFirst` removes exactly one occurrence: the original list is a
permutation of the extracted element consed onto the remainder. -/
theorem extractFirst_perm {α : Type} {p : α → Bool} {l : List α} {x : α} {rest : List α}
    (h : extractFirst p l = some (x, rest)) : l.Perm (x :: rest) := by
  induction l generalizing x rest with
  | nil => simp [extractFirst] at h
  | cons a as ih =>
    rw [extractFirst] at h
    by_cases ha : p a = true
    · rw [if_pos ha] at h
      simp only [Option.some.injEq, Prod.mk.injEq] at h
      obtain ⟨h1, h2⟩ := h
      subst h1; subst h2
      exact List.Perm.refl _
    · rw [if_neg ha] at h
      cases hrec : extractFirst p as with
      | none => rw [hrec] at h; simp at h
      | some pr =>
        obtain ⟨y, ys⟩ := pr
        rw [hrec] at h
        simp only [Option.some.injEq, Prod.mk.injEq] at h
        obtain ⟨h1, h2⟩ := h
        subst h1; subst h2
        exact (List.Perm.cons a (ih hrec)).trans (List.Perm.swap _ _ _)

/-- Moving one element from the first list to the head of the second keeps
the combined ID multiset, hence its `Nodup`. -/
theorem nodup_ids_move (toW watchedL rest : List Movie) (movie movie2 : Movie)
    (hid : movie2.imdbID = movie.imdbID)
    (hperm : toW.Perm (movie :: rest))
    (h : ((toW ++ watchedL).map fun m => m.imdbID).Nodup) :
    ((rest ++ movie2 :: watchedL).map fun m => m.imdbID).Nodup := by
  rw [List.map_append] at h ⊢
  rw [List.map_cons, hid]
  have h1 := List.Perm.map (fun m => m.imdbID) hperm
  have h2 := h1.append_right (watchedL.map fun m => m.imdbID)
  exact (List.perm_middle.nodup_iff).mpr ((h2.nodup_iff).mp h)

/-- Moving one element from the second list to the head of the first keeps
the combined ID multiset, hence its `Nodup`. -/
theorem nodup_ids_move2 (toW watchedL rest : List Movie) (movie movie2 : Movie)
    (hid : movie2.imdbID = movie.imdbID)
    (hperm : watchedL.Perm (movie :: rest))
    (h : ((toW ++ watchedL).map fun m => m.imdbID).Nodup) :
    (((movie2 :: toW) ++ rest).map fun m => m.imdbID).Nodup := by
  rw [List.map_append] at h ⊢
  rw [List.map_cons, hid]
  have h1 := List.Perm.map (fun m => m.imdbID) hperm
  have h2 := h1.append_left (toW.map fun m => m.imdbID)
  exact (List.perm_middle.nodup_iff).mp ((h2.nodup_iff).mp h)

/-- `markAsWatched` preserves distinctness of the combined ID list. -/
theorem idsNodup_markAsWatched (st : MediaData) (id : String) (r : Option Nat)
    (h : idsNodup st) : idsNodup (markAsWatched st id r) := by
  unfold markAsWatched
  split
  · exact h
  · rename_i movie rest hx
    have hperm := extractFirst_perm hx
    cases r with
    | none => exact nodup_ids_move st.toWatch st.watched rest movie movie rfl hperm h
    | some rr =>
      exact nodup_ids_move st.toWatch st.watched rest movie
        { movie with userRating := some rr } rfl hperm h

/-- `markAsUnwatched` preserves distinctness of the combined ID list. -/
theorem idsNodup_markAsUnwatched (st : MediaData) (id : String)
    (h : idsNodup st) : idsNodup (markAsUnwatched st id) := by
  unfold markAsUnwatched
  split
  · exact h
  · rename_i movie rest hx
    have hperm := extractFirst_perm hx
    exact nodup_ids_move2 st.toWatch st.watched rest movie
      { movie with userRating := none } rfl hperm h

/-- Distinct combined IDs imply the two lists share no ID. -/
theorem listsExclusive_of_idsNodup (st : MediaData) (h : idsNodup st) : listsExclusive st := by
  unfold idsNodup allListIds at h
  rw [List.map_append, List.nodup_append] at h
  intro id h1 h2
  exact h.2.2 h1 h2

/-- C8 counterexample: the claim's precondition ("no external ID is present
in both `toWatch` and `watched`") admits a store whose `toWatch` holds the
same movie twice; one `markAsWatched` call then leaves that ID present in
both lists at once. -/
theorem markAsWatched_duplicate_counterexample :
    listsExclusive ⟨[⟨"tt0002", "Metro", "2000", none, none⟩,
                     ⟨"tt0002", "Metro", "2000", none, none⟩], [], none, [], []⟩ ∧
    "tt0002" ∈ (markAsWatched ⟨[⟨"tt0002", "Metro", "2000", none, none⟩,
                     ⟨"tt0002", "Metro", "2000", none, none⟩], [], none, [], []⟩
        "tt0002" none).toWatch.map (fun m => m.imdbID) ∧
    "tt0002" ∈ (markAsWatched ⟨[⟨"tt0002", "Metro", "2000", none, none⟩,
                     ⟨"tt0002", "Metro", "2000", none, none⟩], [], none, [], []⟩
        "tt0002" none).watched.map (fun m => m.imdbID) ∧
    ¬ listsExclusive (markAsWatched ⟨[⟨"tt0002", "Metro", "2000", none, none⟩,
                     ⟨"tt0002", "Metro", "2000", none, none⟩], [], none, [], []⟩
        "tt0002" none) :=
  ⟨by decide, by decide, by decide, by decide⟩

/-- C8 amended: from any store whose external IDs are pairwise distinct
across the two lists (no ID in both and none duplicated within a list),
every sequence of `markAsWatched` / `markAsUnwatched` operations preserves
that distinctness, and in particular no external ID is ever simultaneously
present in both lists. -/
theorem applyMarkOps_exclusive (ops : List MarkOp) (st : MediaData)
    (h : idsNodup st) :
    idsNodup (applyMarkOps ops st) ∧ listsExclusive (applyMarkOps ops st) := by
  induction ops generalizing st with
  | nil => exact ⟨h, listsExclusive_of_idsNodup st h⟩
  | cons op rest ih =>
    cases op with
    | watch id r => exact ih (markAsWatched st id r) (idsNodup_markAsWatched st id r h)
    | unwatch id => exact ih (markAsUnwatched st id) (idsNodup_markAsUnwatched st id h)

/-- Witness for the amended C8: a two-operation sequence on a concrete
store with distinct IDs. -/
theorem applyMarkOps_exclusive_witness :
    idsNodup ⟨[⟨"tt0001", "Alpha", "1990", none, none⟩],
              [⟨"tt0002", "Metro", "2000", none, none⟩], none, [], []⟩ ∧
    listsExclusive (applyMarkOps [MarkOp.watch "tt0001" (some 7), MarkOp.unwatch "tt0002"]
      ⟨[⟨"tt0001", "Alpha", "1990", none, none⟩],
       [⟨"tt0002", "Metro", "2000", none, none⟩], none, [], []⟩) :=
  ⟨by decide,
   (applyMarkOps_exclusive [MarkOp.watch "tt0001" (some 7), MarkOp.unwatch "tt0002"]
     ⟨[⟨"tt0001", "Alpha", "1990", none, none⟩],
      [⟨"tt0002", "Metro", "2000", none, none⟩], none, [], []⟩ (by decide)).2⟩

/-- C9 counterexample: a network failure (rejecting fetch) and a not-found
response produce the very same plain `none` result from both
`searchMovieByTitle` and `fetchMovieDetails` — no distinguished
metadata-unavailable failure is raised; every run resolves normally. -/
theorem omdb_failure_indistinguishable_counterexample :
    searchMovieByTitle (fun _ => .error ()) "Dune" "2021" = none ∧
    searchMovieByTitle (fun _ => .ok ⟨"False", some "Movie not found!", none⟩) "Dune" "2021" =
      none ∧
    searchMovieByTitle (fun _ => .error ()) "Dune" "2021" =
      searchMovieByTitle (fun _ => .ok ⟨"False", some "Movie not found!", none⟩) "Dune" "2021" ∧
    fetchMovieDetails (.error ()) "tt0002" = none ∧
    fetchMovieDetails (.ok ⟨"False", some "Movie not found!", none⟩) "tt0002" = none :=
  ⟨rfl, rfl, rfl, rfl, rfl⟩

/-- C9 amended: the Metadata Client lookups never raise: their own `catch`
(and, for `fetchMovieDetails`, the `Response === 'False'` throw that the
same `catch` swallows) turns a network failure into the same plain `null`
result that a not-found produces. -/
theorem omdb_null_on_failure_and_notfound :
    (∀ (fetchO : Nat → Except Unit OmdbJson) (title year : String),
      fetchO 0 = .error () → searchMovieByTitle fetchO title year = none) ∧
    (∀ imdbID : String, fetchMovieDetails (.error ()) imdbID = none) ∧
    (∀ (data : OmdbJson) (imdbID : String), data.Response = "False" →
      fetchMovieDetails (.ok data) imdbID = none) := by
  refine ⟨?_, ?_, ?_⟩
  · intro f t y h
    unfold searchMovieByTitle
    rw [h]
  · intro i
    rfl
  · intro d i h
    unfold fetchMovieDetails
    simp [h]

/-- Witness for the amended C9 at concrete oracles. -/
theorem omdb_null_on_failure_and_notfound_witness :
    searchMovieByTitle (fun _ => .error ()) "Dune" "" = none ∧
    fetchMovieDetails (.error ()) "tt0001" = none ∧
    fetchMovieDetails (.ok ⟨"False", some "Movie not found!", none⟩) "tt0001" = none :=
  ⟨omdb_null_on_failure_and_notfound.1 (fun _ => .error ()) "Dune" "" rfl,
   omdb_null_on_failure_and_notfound.2.1 "tt0001",
   omdb_null_on_failure_and_notfound.2.2 ⟨"False", some "Movie not found!", none⟩ "tt0001" rfl⟩

/-- C6 counterexample: on the input `"[]"` the structured-literal parse
succeeds with an empty array — zero title/year pairs from either strategy —
yet `parseResponseJson` does not fail, contradicting the claim that it
fails exactly when neither strategy yields at least one pair. -/
theorem parseResponseJson_zero_pairs_counterexample :
    parseResponseJson "[]" = .ok (.jarr []) ∧
    hasTitleYearPair (.jarr []) = false ∧
    extractAllSuggestions "[]" = [] ∧
    extractSingleSuggestion "[]" = none :=
  ⟨rfl, rfl, rfl, rfl⟩

/-- C6 amended: on the claim's concrete text the fallback extractor yields
the expected Dune/2021/epic-scale triple (as the single row of the
extracted array); and `parseResponseJson` fails exactly when the
structured-literal parse fails AND both fallback extractors come up empty —
a successful structured parse short-circuits even when it yields no
title/year pair. -/
theorem parseResponseJson_contract :
    parseResponseJson "title: \"Dune\", year: \"2021\", reason: \"epic scale\"" =
      .ok (.jarr [sugToJson ⟨"Dune", "2021", "epic scale"⟩]) ∧
    ∀ content, parseResponseJson content = .error () ↔
      (primaryParse content = none ∧ extractAllSuggestions content = [] ∧
        extractSingleSuggestion content = none) := by
  refine ⟨rfl, ?_⟩
  intro content
  cases hp : primaryParse content with
  | some v => simp [parseResponseJson, hp]
  | none =>
    cases he : extractAllSuggestions content with
    | cons a as => simp [parseResponseJson, hp, he]
    | nil =>
      cases hs : extractSingleSuggestion content with
      | some s => simp [parseResponseJson, hp, he, hs]
      | none => simp [parseResponseJson, hp, he, hs]
